import Mathlib

/-!
# Verification of the `@cushin/api-runtime` API client

A shallow embedding of `packages/api-runtime/src/schema.ts`: the endpoint
registry, path/query assembly, request dispatch with schema validation, the
error taxonomy, and the single-flight token-refresh state machine.

JavaScript runtime values that flow through the client (path parameters,
query values, request/response bodies) are modelled by `JVal`; zod schemas
are opaque validators `JVal → Except String JVal` (parse either returns the
typed value or throws, carrying a message).
-/

namespace ApiRuntime

/-- A JavaScript runtime value as seen by the client (JSON plus `undefined`). -/
inductive JVal where
  | null : JVal
  | undefined : JVal
  | bool : Bool → JVal
  | num : Int → JVal
  | str : String → JVal
  | arr : List JVal → JVal
  | obj : List (String × JVal) → JVal
deriving Repr, Inhabited

/-- JavaScript truthiness of a `JVal` (`if (value)`). -/
def JVal.truthy : JVal → Bool
  | .null => false
  | .undefined => false
  | .bool b => b
  | .num n => n != 0
  | .str s => s != ""
  | .arr _ => true
  | .obj _ => true

mutual
/-- JavaScript `String(value)` coercion. -/
def jsToString : JVal → String
  | .null => "null"
  | .undefined => "undefined"
  | .bool b => cond b "true" "false"
  | .num n => toString n
  | .str s => s
  | .arr xs => String.intercalate "," (jsArrElems xs)
  | .obj _ => "[object Object]"

/-- Elements of `Array.prototype.join`: `null`/`undefined` become empty. -/
def jsArrElems : List JVal → List String
  | [] => []
  | .null :: rest => "" :: jsArrElems rest
  | .undefined :: rest => "" :: jsArrElems rest
  | v :: rest => jsToString v :: jsArrElems rest
end

/-- UTF-8 byte sequence of a code point (as used by `encodeURIComponent`). -/
def utf8Bytes (n : Nat) : List Nat :=
  if n < 0x80 then [n]
  else if n < 0x800 then [0xC0 + n / 64, 0x80 + n % 64]
  else if n < 0x10000 then
    [0xE0 + n / 4096, 0x80 + (n / 64) % 64, 0x80 + n % 64]
  else
    [0xF0 + n / 262144, 0x80 + (n / 4096) % 64, 0x80 + (n / 64) % 64,
     0x80 + n % 64]

/-- Uppercase hexadecimal digit. -/
def hexDigit (n : Nat) : Char :=
  if n < 10 then Char.ofNat (48 + n) else Char.ofNat (55 + n)

/-- `%XX` percent-encoding of one byte. -/
def percentByte (b : Nat) : List Char :=
  ['%', hexDigit (b / 16), hexDigit (b % 16)]

/-- Characters `encodeURIComponent` leaves unescaped. -/
def uriUnreserved (c : Char) : Bool :=
  c.isAlphanum || c == '-' || c == '_' || c == '.' || c == '!' ||
    c == '~' || c == '*' || c == Char.ofNat 39 || c == '(' || c == ')'

/-- `encodeURIComponent` over a character list. -/
def encodeURIComponentList (cs : List Char) : List Char :=
  cs.flatMap fun c =>
    if uriUnreserved c then [c] else (utf8Bytes c.toNat).flatMap percentByte

/-- JavaScript `encodeURIComponent`. -/
def encodeURIComponent (s : String) : String :=
  String.mk (encodeURIComponentList s.toList)

/-- `String.prototype.replace` with a string pattern: replaces only the
FIRST occurrence of `pat`; if `pat` does not occur, the input is returned
unchanged. -/
def replaceFirst (pat rep : List Char) : List Char → List Char
  | [] => if pat.isPrefixOf ([] : List Char) then rep else []
  | c :: rest =>
    if pat.isPrefixOf (c :: rest) then rep ++ (c :: rest).drop pat.length
    else c :: replaceFirst pat rep rest

/-- `s.replace(pat, rep)` on Lean strings. -/
def jsReplaceOnce (s pat rep : String) : String :=
  String.mk (replaceFirst pat.toList rep.toList s.toList)

/-- Does `pat` occur as a contiguous sublist of the input? -/
def occursIn (pat : List Char) : List Char → Bool
  | [] => pat.isEmpty
  | c :: rest => pat.isPrefixOf (c :: rest) || occursIn pat rest

/-- `APIClient.buildPath`: for each `[key, value]` of the params map
(entry order), replace `":" + key` in the accumulated path by
`encodeURIComponent(String(value))`; `undefined`/`null` params map
returns the path unchanged. -/
def buildPath (path : String) (params : Option (List (String × JVal))) :
    String :=
  match params with
  | none => path
  | some ps =>
    ps.foldl
      (fun acc kv =>
        jsReplaceOnce acc (":" ++ kv.1)
          (encodeURIComponent (jsToString kv.2)))
      path

/-- HTTP methods accepted by the registry (`HTTPMethod` in `schema.ts`). -/
inductive HTTPMethod where
  | GET | POST | PUT | PATCH | DELETE
deriving DecidableEq, Repr

/-- An opaque zod validator: `parse` returns the typed value or throws with
a message. -/
def Schema : Type := JVal → Except String JVal

/-- `APIEndpoint`: `response` is required by the TypeScript type but has no
runtime witness, so an entry can lack it at runtime (the client itself
guards `if (endpoint.response)`), hence `Option`. -/
structure APIEndpointM where
  path : String
  method : HTTPMethod
  baseUrl : Option String := none
  paramsSchema : Option Schema := none
  querySchema : Option Schema := none
  bodySchema : Option Schema := none
  response : Option Schema := none

/-- `APIConfig`: default base URL plus the named endpoint registry. -/
structure APIConfigM where
  baseUrl : Option String := none
  endpoints : List (String × APIEndpointM)

/-- The client's error taxonomy: `APIError(message, status, response?)` and
its subclass `AuthError` (status fixed at 401). -/
inductive RuntimeError where
  | apiError (message : String) (status : Nat) (response : Option JVal)
  | authError (message : String)
deriving Repr

/-- Is a query value dropped by the serializer
(`value !== undefined && value !== null` failing)? -/
def isNullish : JVal → Bool
  | .undefined => true
  | .null => true
  | _ => false

/-- The `URLSearchParams` accumulation loop in `APIClient.request`:
append `(key, String(value))` for every non-nullish entry, in order. -/
def buildSearchParams (q : List (String × JVal)) : List (String × String) :=
  q.foldl
    (fun acc kv =>
      if isNullish kv.2 then acc else acc ++ [(kv.1, jsToString kv.2)])
    []

/-- One character of `application/x-www-form-urlencoded` serialization
(as `URLSearchParams.toString` uses): space becomes `+`, alphanumerics and
`*-._` stay, everything else is percent-encoded. -/
def formEncodeChar (c : Char) : List Char :=
  if c == ' ' then ['+']
  else if c.isAlphanum || c == '*' || c == '-' || c == '.' || c == '_' then
    [c]
  else (utf8Bytes c.toNat).flatMap percentByte

/-- Form-urlencode a string. -/
def formEncode (s : String) : String :=
  String.mk (s.toList.flatMap formEncodeChar)

/-- `URLSearchParams.toString()`: `k=v` pairs joined by `&`. -/
def searchParamsToString (ps : List (String × String)) : String :=
  String.intercalate "&"
    (ps.map fun kv => formEncode kv.1 ++ "=" ++ formEncode kv.2)

/-- The query handling of `APIClient.request`: search parameters are built
only when the query object is present and has at least one key, and are
attached to the options only when their serialization is non-empty. -/
def mkSearchParams (query : Option (List (String × JVal))) :
    Option (List (String × String)) :=
  match query with
  | none => none
  | some q =>
    if q.length > 0 then
      let sp := buildSearchParams q
      if searchParamsToString sp = "" then none else some sp
    else none

/-- The options object handed to the `ky` client by `request`. -/
structure ReqOptions where
  method : HTTPMethod
  searchParams : Option (List (String × String))
  json : Option JVal

/-- The body handling of `APIClient.request`:
`if (body && endpoint.method !== "GET")` validate through the body schema
when one is declared (propagating a validation throw), else pass the raw
body; otherwise no `json` option is set. -/
def mkJson (ep : APIEndpointM) (body : Option JVal) :
    Except String (Option JVal) :=
  match body with
  | none => .ok none
  | some b =>
    if b.truthy && ep.method != HTTPMethod.GET then
      match ep.bodySchema with
      | some sch => (sch b).map some
      | none => .ok (some b)
    else .ok none

/-- Assembled request options (method, query, validated body). -/
def mkOpts (ep : APIEndpointM) (query : Option (List (String × JVal)))
    (json : Option JVal) : ReqOptions :=
  { method := ep.method, searchParams := mkSearchParams query, json := json }

/-- Outcome of the underlying `ky` call as observed by `request`'s `try`
block: a 2xx response (whose `response.json()` may itself fail), a thrown
`HTTPError` (with ky's message and the best-effort parsed error body, `none`
when `error.response.json()` rejected), a thrown `AuthError` from the retry
hook, or a transport-level error. -/
inductive TransportResult where
  | success (body : Except String JVal)
  | httpError (status : Nat) (kyMessage : String) (errBody : Option JVal)
  | authErr
  | netErr (message : String)

/-- Property lookup on a `JVal` object (`undefined` when absent). -/
def objGet (v : JVal) (key : String) : JVal :=
  match v with
  | .obj fields =>
    match fields.find? (fun kv => kv.1 == key) with
    | some kv => kv.2
    | none => .undefined
  | _ => .undefined

/-- JavaScript `a || b` on a value and a string fallback
(`errorData.message || error.message`). -/
def jsOrStr (v : JVal) (fallback : String) : String :=
  if v.truthy then jsToString v else fallback

/-- The part of `APIClient.request` from `await client(path, options)` on:
response parsing, response-schema validation, and the `catch` block that
classifies thrown errors (`HTTPError` → `APIError` with the HTTP status,
`AuthError` rethrown, anything else → `APIError` with status 0). -/
def handleTransport (ep : APIEndpointM) (tr : TransportResult) :
    Except RuntimeError JVal :=
  match tr with
  | .success bodyE =>
    match bodyE with
    | .error m => .error (.apiError m 0 none)
    | .ok data =>
      match ep.response with
      | some sch =>
        match sch data with
        | .ok v => .ok v
        | .error m => .error (.apiError m 0 none)
      | none => .ok data
  | .httpError status kyMsg errBody =>
    let errorData := errBody.getD (.obj [])
    .error (.apiError (jsOrStr (objGet errorData "message") kyMsg) status
      (some errorData))
  | .authErr => .error (.authError "Authentication failed")
  | .netErr m => .error (.apiError m 0 none)

/-- `APIClient.request`: build the path, validate the body (a validation
throw is caught as a generic error with status 0 before any network
activity), issue the call, and classify the outcome. The second component
counts invocations of the underlying HTTP client (0 or 1). -/
def request (ep : APIEndpointM) (params : Option (List (String × JVal)))
    (query : Option (List (String × JVal))) (body : Option JVal)
    (transport : String → ReqOptions → TransportResult) :
    Except RuntimeError JVal × Nat :=
  match mkJson ep body with
  | .error m => (.error (.apiError m 0 none), 0)
  | .ok json =>
    (handleTransport ep
      (transport (buildPath ep.path params) (mkOpts ep query json)), 1)

/-! ### The `ky` retry loop and the `beforeRetry` hook -/

/-- Which auth callbacks a client was given, and whether the externally
supplied `onRefreshToken` action succeeds when invoked. -/
structure AuthEnv where
  hasCallbacks : Bool
  hasOnRefreshToken : Bool
  hasOnAuthError : Bool
  refreshSucceeds : Bool

/-- Observable side effects of one logical call: network attempts made,
`onRefreshToken` invocations, `onAuthError` invocations. -/
structure KyEffects where
  attempts : Nat
  refreshInvocations : Nat
  authErrorCalls : Nat
deriving DecidableEq, Repr

/-- How the `ky` fetch-with-retry loop for one logical call stops. -/
inductive KyStop where
  | success (attempt : Nat)
  | authFail
  | httpFail (status : Nat)
deriving DecidableEq, Repr

/-- `APIClient.refreshTokens` from one caller's viewpoint (its single-flight
sharing is modelled separately by `SFStep`): throws when no callbacks or no
`onRefreshToken` handler are configured, otherwise invokes the handler and
propagates its outcome. -/
def refreshTokensSeq (env : AuthEnv) (eff : KyEffects) : Bool × KyEffects :=
  if !env.hasCallbacks then (false, eff)
  else if env.hasOnRefreshToken then
    (env.refreshSucceeds,
     { eff with refreshInvocations := eff.refreshInvocations + 1 })
  else (false, eff)

/-- The `beforeRetry` hook on a 401: on the first retry with callbacks
configured, refresh and (on success) reattach the bearer header; on refresh
failure notify `onAuthError` and throw `AuthError`; on any later retry, or
without callbacks, notify `onAuthError` (when available) and throw
`AuthError`. Returns `true` when the retry may proceed. -/
def beforeRetry401 (env : AuthEnv) (retryCount : Nat) (eff : KyEffects) :
    Bool × KyEffects :=
  if retryCount == 1 && env.hasCallbacks then
    match refreshTokensSeq env eff with
    | (true, eff1) => (true, eff1)
    | (false, eff1) =>
      (false,
       { eff1 with
          authErrorCalls :=
            eff1.authErrorCalls + (if env.hasOnAuthError then 1 else 0) })
  else
    (false,
     { eff with
        authErrorCalls :=
          eff.authErrorCalls +
            (if env.hasCallbacks && env.hasOnAuthError then 1 else 0) })

/-- The `ky` request loop with `retry: { limit, statusCodes: [401] }`:
attempt `n` reads its status from the oracle; a 2xx resolves; a 401 with
retries remaining runs the `beforeRetry` hook (whose throw rejects the
call with `AuthError`) and refetches; anything else (including a 401 with
retries exhausted) throws `HTTPError`. -/
def kyLoop (statuses : Nat → Nat) (env : AuthEnv) (limit : Nat) :
    Nat → KyEffects → KyStop × KyEffects
  | retriesLeft, eff =>
    let n := limit - retriesLeft
    let s := statuses n
    let eff1 := { eff with attempts := eff.attempts + 1 }
    if 200 ≤ s ∧ s ≤ 299 then (.success n, eff1)
    else if s = 401 then
      match retriesLeft with
      | 0 => (.httpFail s, eff1)
      | r + 1 =>
        match beforeRetry401 env (n + 1) eff1 with
        | (true, eff2) => kyLoop statuses env limit r eff2
        | (false, eff2) => (.authFail, eff2)
    else (.httpFail s, eff1)

/-- One logical call through the client's `ky` instance
(`retry.limit = 2` as configured in the `APIClient` constructor). -/
def kyCall (statuses : Nat → Nat) (env : AuthEnv) : KyStop × KyEffects :=
  kyLoop statuses env 2 2 ⟨0, 0, 0⟩

/-- Lift the loop outcome to what `request`'s `try` block observes. -/
def kyToTransport (stop : KyStop) (respBody : Nat → Except String JVal)
    (kyMessage : String) (errBody : Option JVal) : TransportResult :=
  match stop with
  | .success n => .success (respBody n)
  | .authFail => .authErr
  | .httpFail s => .httpError s kyMessage errBody

/-! ### Client construction and per-endpoint clients -/

/-- A created `ky` instance: its prefix URL and (the identity of) the hooks
object it was created with. -/
structure KyClientM where
  prefixUrl : Option String
  hooksId : Nat
deriving DecidableEq, Repr

/-- The `APIClient` instance after its constructor ran: the config, the
callback presence, one hooks object (identified by `hooksId`, bound to this
instance's refresh state), and the default `ky` client created over
`config.baseUrl` with those hooks. -/
structure APIClientM where
  config : APIConfigM
  hasCallbacks : Bool
  hooksId : Nat
  client : KyClientM

/-- The `APIClient` constructor: builds the hooks object and the default
`ky` client; it inspects no endpoint entry and has no failure path. -/
def mkAPIClient (config : APIConfigM) (hooksId : Nat) (hasCallbacks : Bool) :
    APIClientM :=
  { config := config
    hasCallbacks := hasCallbacks
    hooksId := hooksId
    client := { prefixUrl := config.baseUrl, hooksId := hooksId } }

/-- JavaScript `a || b` over optional strings (empty string is falsy), as in
`endpoint.baseUrl || this.config.baseUrl!`. -/
def jsOrOptStr : Option String → Option String → Option String
  | some s, b => if s = "" then b else some s
  | none, b => b

/-- `APIClient.getEndpointBaseUrl`. -/
def getEndpointBaseUrl (c : APIClientM) (ep : APIEndpointM) :
    Option String :=
  jsOrOptStr ep.baseUrl c.config.baseUrl

/-- `APIClient.getClientForEndpoint`: reuse the default client when the
effective base URL equals the config's, otherwise create a fresh `ky`
instance over the override — passing `hooks: this.hooks`, the same hooks
object of this instance. -/
def getClientForEndpoint (c : APIClientM) (ep : APIEndpointM) : KyClientM :=
  let endpointBaseUrl := getEndpointBaseUrl c ep
  if endpointBaseUrl = c.config.baseUrl then c.client
  else { prefixUrl := endpointBaseUrl, hooksId := c.hooksId }

/-- The argument shape `generateMethods` gives a generated method. -/
inductive MethodShape where
  | noArgs | paramsOnly | queryOnly | paramsQuery | bodyOnly | paramsBody
deriving DecidableEq, Repr

/-- Shape selection of `APIClient.generateMethods` for one endpoint. -/
def methodShape (ep : APIEndpointM) : MethodShape :=
  if ep.method = HTTPMethod.GET then
    match ep.paramsSchema.isSome, ep.querySchema.isSome with
    | true, true => .paramsQuery
    | true, false => .paramsOnly
    | false, true => .queryOnly
    | false, false => .noArgs
  else
    match ep.paramsSchema.isSome, ep.bodySchema.isSome with
    | true, true => .paramsBody
    | true, false => .paramsOnly
    | false, true => .bodyOnly
    | false, false => .noArgs

/-- `APIClient.generateMethods`: one callable per registry entry; never
fails. -/
def generateMethods (c : APIClientM) : List (String × MethodShape) :=
  c.config.endpoints.map fun nep => (nep.1, methodShape nep.2)

/-- `createAPIClient`: construct the instance and the method surface. Every
code path returns; no endpoint entry is validated, so construction cannot
fail at runtime. -/
def createAPIClient (config : APIConfigM) (hooksId : Nat)
    (hasCallbacks : Bool) :
    Except RuntimeError (List (String × MethodShape) × APIClientM) :=
  let instanceC := mkAPIClient config hooksId hasCallbacks
  .ok (generateMethods instanceC, instanceC)

/-! ### Single-flight refresh: cooperative-concurrency state machine

`refreshTokens` runs its check (`isRefreshing && refreshPromise`) and its
claim (`isRefreshing = true; refreshPromise = (async () => ...)()`) in one
synchronous segment with no intervening `await`, so under JavaScript's
cooperative scheduler the whole segment is one atomic step; `onRefreshToken`
is invoked inside the synchronously started async function. The `finally`
clears both fields when the shared promise settles. Tasks carry an opaque
label `α` (e.g. the endpoint they were requesting) that transitions never
inspect. -/

/-- Where one task (a request that observed a 401) stands. -/
inductive TaskPhase where
  | pending : TaskPhase
  | awaiting : Nat → TaskPhase
  | done : Nat → Bool → TaskPhase
deriving DecidableEq, Repr

/-- Shared client state plus the tasks, for the refresh protocol. `settled`
records settled refresh promises with their outcome (`true` = refresh
succeeded). -/
structure SFState (α : Type) where
  isRefreshing : Bool
  refreshPromise : Option Nat
  nextPid : Nat
  invocations : Nat
  settled : List (Nat × Bool)
  tasks : List (α × TaskPhase)

/-- Scheduler events. -/
inductive SFLabel where
  | enter (i : Nat)
  | settle (p : Nat) (o : Bool)
  | resume (i : Nat)
deriving DecidableEq, Repr

/-- One cooperative step. `enterShared`/`enterFresh` are the two branches of
the synchronous prefix of `refreshTokens` run by task `i`; `settle` is the
settlement of the outstanding refresh promise (running the `finally`);
`resume` lets a task awaiting a settled promise observe its outcome. -/
inductive SFStep {α : Type} : SFState α → SFLabel → SFState α → Prop where
  | enterShared {s : SFState α} {i : Nat} {l : α} {p : Nat}
      (ht : s.tasks.get? i = some (l, .pending))
      (hr : s.isRefreshing = true)
      (hp : s.refreshPromise = some p) :
      SFStep s (.enter i) { s with tasks := s.tasks.set i (l, .awaiting p) }
  | enterFresh {s : SFState α} {i : Nat} {l : α}
      (ht : s.tasks.get? i = some (l, .pending))
      (hg : s.isRefreshing = false ∨ s.refreshPromise = none) :
      SFStep s (.enter i)
        { isRefreshing := true
          refreshPromise := some s.nextPid
          nextPid := s.nextPid + 1
          invocations := s.invocations + 1
          settled := s.settled
          tasks := s.tasks.set i (l, .awaiting s.nextPid) }
  | settle {s : SFState α} {p : Nat} (o : Bool)
      (hp : s.refreshPromise = some p) :
      SFStep s (.settle p o)
        { s with
            isRefreshing := false
            refreshPromise := none
            settled := (p, o) :: s.settled }
  | resume {s : SFState α} {i : Nat} {l : α} {p : Nat} {o : Bool}
      (ht : s.tasks.get? i = some (l, .awaiting p))
      (hs : (p, o) ∈ s.settled) :
      SFStep s (.resume i) { s with tasks := s.tasks.set i (l, .done p o) }

/-- A labelled trace of cooperative steps. -/
inductive SFTrace {α : Type} : SFState α → List SFLabel → SFState α → Prop
  where
  | nil (s : SFState α) : SFTrace s [] s
  | cons {s s' s'' : SFState α} {e : SFLabel} {es : List SFLabel} :
      SFStep s e s' → SFTrace s' es s'' → SFTrace s (e :: es) s''

/-- Initial state: no refresh in flight, every task has just observed a 401
and is about to call `refreshTokens`. -/
def sfInit {α : Type} (labels : List α) : SFState α :=
  { isRefreshing := false
    refreshPromise := none
    nextPid := 0
    invocations := 0
    settled := []
    tasks := labels.map fun l => (l, .pending) }

/-- Bookkeeping invariant of the refresh protocol: `isRefreshing` mirrors
`refreshPromise`, and every invocation of `onRefreshToken` is either the
one outstanding refresh or a settled one. -/
def sfCounts {α : Type} (s : SFState α) : Prop :=
  s.isRefreshing = s.refreshPromise.isSome ∧
  s.invocations =
    s.settled.length + (if s.refreshPromise.isSome then 1 else 0)

/-- Invariant of the window in which tasks enter `refreshTokens` and the
shared refresh has not yet settled: either nobody entered yet, or exactly
one refresh was started and everyone who entered awaits it. -/
def winInv {α : Type} (s : SFState α) : Prop :=
  s.settled = [] ∧
  ((s.invocations = 0 ∧ s.isRefreshing = false ∧ s.refreshPromise = none ∧
      ∀ t ∈ s.tasks, t.2 = TaskPhase.pending) ∨
   (∃ p, s.invocations = 1 ∧ s.isRefreshing = true ∧
      s.refreshPromise = some p ∧
      ∀ t ∈ s.tasks, t.2 = TaskPhase.pending ∨ t.2 = TaskPhase.awaiting p))

/-- Invariant after every task has entered: the single refresh `p0` is
either still outstanding with everyone awaiting it, or settled with outcome
`o` and every task awaiting or done with exactly that outcome. -/
def postInv {α : Type} (p0 : Nat) (s : SFState α) : Prop :=
  s.invocations = 1 ∧ (∀ t ∈ s.tasks, t.2 ≠ TaskPhase.pending) ∧
  ((s.refreshPromise = some p0 ∧ s.settled = [] ∧
      ∀ t ∈ s.tasks, t.2 = TaskPhase.awaiting p0) ∨
   (∃ o, s.refreshPromise = none ∧ s.settled = [(p0, o)] ∧
      ∀ t ∈ s.tasks,
        t.2 = TaskPhase.awaiting p0 ∨ t.2 = TaskPhase.done p0 o))

/-! ### Concrete schemas, endpoints and configurations used as witnesses -/

/-- A schema accepting objects whose `name` property is a string
(the `createUser` body schema of the spec's scenario). -/
def schName : Schema := fun v =>
  match objGet v "name" with
  | .str _ => .ok v
  | _ => .error "name must be string"

/-- A schema accepting objects whose `email` property is a string. -/
def schEmail : Schema := fun v =>
  match objGet v "email" with
  | .str _ => .ok v
  | _ => .error "email required"

/-- The identity schema (accepts anything). -/
def schAny : Schema := fun v => .ok v

/-- `createUser: POST /users` with the `name: string` body schema. -/
def epCreateUser : APIEndpointM :=
  { path := "/users", method := .POST, bodySchema := some schName,
    response := some schAny }

/-- `getUser: GET /users/:id` with a response schema requiring `email`. -/
def epGetUser : APIEndpointM :=
  { path := "/users/:id", method := .GET, response := some schEmail }

/-- An endpoint entry lacking a response schema at runtime. -/
def epNoResponse : APIEndpointM :=
  { path := "/health", method := .GET, response := none }

/-- A registry containing the entry that lacks a response schema. -/
def cfgNoResponse : APIConfigM :=
  { baseUrl := some "https://api.example.com"
    endpoints := [("health", epNoResponse)] }

/-- An endpoint with a per-endpoint base URL override. -/
def epOverride : APIEndpointM :=
  { path := "/orders", method := .GET,
    baseUrl := some "https://orders.example.com", response := some schAny }

/-- Boolean success of an `Except`. -/
def exceptIsOk {ε σ : Type} : Except ε σ → Bool
  | .ok _ => true
  | .error _ => false

/-! ### A concrete two-task run of the refresh protocol (witness states) -/

/-- After task 0 entered `refreshTokens` and started the refresh. -/
def sfS1Ex : SFState Nat :=
  ⟨true, some 0, 1, 1, [], [(0, .awaiting 0), (1, .pending)]⟩

/-- After task 1 also entered and joined the in-flight refresh. -/
def sfMidEx : SFState Nat :=
  ⟨true, some 0, 1, 1, [], [(0, .awaiting 0), (1, .awaiting 0)]⟩

/-- After the shared refresh settled successfully. -/
def sfS3Ex : SFState Nat :=
  ⟨false, none, 1, 1, [(0, true)], [(0, .awaiting 0), (1, .awaiting 0)]⟩

/-- After task 0 resumed. -/
def sfS4Ex : SFState Nat :=
  ⟨false, none, 1, 1, [(0, true)], [(0, .done 0 true), (1, .awaiting 0)]⟩

/-- After task 1 resumed: both tasks observed the single refresh. -/
def sfFinEx : SFState Nat :=
  ⟨false, none, 1, 1, [(0, true)], [(0, .done 0 true), (1, .done 0 true)]⟩

/-- The same run with tasks labelled by the endpoint they were calling
(two endpoints with different base URLs sharing one client instance). -/
def sfS1Sx : SFState String :=
  ⟨true, some 0, 1, 1, [], [("users", .awaiting 0), ("orders", .pending)]⟩

/-- Both endpoint-labelled tasks joined the single refresh. -/
def sfMidSx : SFState String :=
  ⟨true, some 0, 1, 1, [], [("users", .awaiting 0), ("orders", .awaiting 0)]⟩

/-- The shared refresh settled. -/
def sfS3Sx : SFState String :=
  ⟨false, none, 1, 1, [(0, true)],
   [("users", .awaiting 0), ("orders", .awaiting 0)]⟩

/-- The `users` task resumed. -/
def sfS4Sx : SFState String :=
  ⟨false, none, 1, 1, [(0, true)],
   [("users", .done 0 true), ("orders", .awaiting 0)]⟩

/-- Both endpoint-labelled tasks observed the single refresh. -/
def sfFinSx : SFState String :=
  ⟨false, none, 1, 1, [(0, true)],
   [("users", .done 0 true), ("orders", .done 0 true)]⟩

/-! ## Lemmas about `replaceFirst` and `buildPath` -/

theorem isPrefixOf_self_append (p t : List Char) :
    p.isPrefixOf (p ++ t) = true := by
  induction p with
  | nil => simp [List.isPrefixOf]
  | cons c cs ih => simp [List.isPrefixOf, ih]

theorem isPrefixOf_false_of_absent {pat s : List Char}
    (h : occursIn pat s = false) : pat.isPrefixOf s = false := by
  cases s with
  | nil =>
    cases pat with
    | nil => simp [occursIn] at h
    | cons c cs => rfl
  | cons c rest =>
    simp only [occursIn, Bool.or_eq_false_iff] at h
    exact h.1

theorem occursIn_tail_false {pat : List Char} {c : Char} {rest : List Char}
    (h : occursIn pat (c :: rest) = false) : occursIn pat rest = false := by
  simp only [occursIn, Bool.or_eq_false_iff] at h
  exact h.2

/-- If the pattern does not occur in the string, `replaceFirst` is the
identity. -/
theorem replaceFirst_of_absent (pat rep : List Char) :
    ∀ s : List Char, occursIn pat s = false → replaceFirst pat rep s = s := by
  intro s
  induction s with
  | nil =>
    intro h
    simp [replaceFirst, isPrefixOf_false_of_absent h]
  | cons c rest ih =>
    intro h
    simp [replaceFirst, isPrefixOf_false_of_absent h,
      ih (occursIn_tail_false h)]

/-- If no entry of the params map has a key whose `:key` placeholder occurs
in the path, `buildPath` returns the path unchanged. -/
theorem buildPath_of_keys_absent (path : String)
    (ps : List (String × JVal))
    (h : ∀ kv ∈ ps, occursIn ((":" ++ kv.1).toList) path.toList = false) :
    buildPath path (some ps) = path := by
  induction ps generalizing path with
  | nil => rfl
  | cons kv rest ih =>
    have h1 : occursIn ((":" ++ kv.1).toList) path.toList = false :=
      h kv (List.mem_cons_self kv rest)
    have hstep :
        jsReplaceOnce path (":" ++ kv.1)
          (encodeURIComponent (jsToString kv.2)) = path := by
      unfold jsReplaceOnce
      rw [replaceFirst_of_absent _ _ _ h1]
      cases path
      rfl
    show buildPath
        (jsReplaceOnce path (":" ++ kv.1)
          (encodeURIComponent (jsToString kv.2))) (some rest) = path
    rw [hstep]
    exact ih path (fun kv' hkv' => h kv' (List.mem_cons_of_mem kv hkv'))

theorem isPrefixOf_cons_false {k : List Char} {c : Char} {t : List Char}
    (hc : c ≠ ':') : (':' :: k).isPrefixOf (c :: t) = false := by
  simp only [List.isPrefixOf, Bool.and_eq_false_iff]
  left
  exact beq_eq_false_iff_ne.mpr (fun h => hc h.symm)

/-- Replacing `:key` in `a ++ ":key" ++ b` when `a` contains no colon
rewrites exactly the occurrence at the boundary. -/
theorem replaceFirst_boundary (k rep b : List Char) :
    ∀ a : List Char, (∀ c ∈ a, c ≠ ':') →
      replaceFirst (':' :: k) rep (a ++ ':' :: k ++ b) = a ++ rep ++ b := by
  intro a
  induction a with
  | nil =>
    intro _
    have hp : (':' :: k).isPrefixOf (':' :: (k ++ b)) = true :=
      isPrefixOf_self_append (':' :: k) b
    have hd : (':' :: (k ++ b)).drop (':' :: k).length = b :=
      List.drop_left (':' :: k) b
    simp [replaceFirst, List.append_eq, hp, hd]
  | cons c rest ih =>
    intro h
    have hc : c ≠ ':' := h c (List.mem_cons_self c rest)
    have hrec := ih (fun x hx => h x (List.mem_cons_of_mem c hx))
    simp only [replaceFirst, isPrefixOf_cons_false hc, Bool.false_eq_true,
      if_false, List.cons_append, List.append_assoc]
    simpa [List.append_assoc] using hrec

/-! ## Single-flight refresh: invariants -/

theorem sfStep_tasks_length {α : Type} {s s' : SFState α} {e : SFLabel}
    (h : SFStep s e s') : s'.tasks.length = s.tasks.length := by
  cases h <;> simp [List.length_set]

theorem sfTrace_tasks_length {α : Type} {s s' : SFState α}
    {es : List SFLabel} (h : SFTrace s es s') :
    s'.tasks.length = s.tasks.length := by
  induction h with
  | nil => rfl
  | cons hstep _ ih => rw [ih, sfStep_tasks_length hstep]

theorem sfCounts_step {α : Type} {s s' : SFState α} {e : SFLabel}
    (h : SFStep s e s') (hc : sfCounts s) : sfCounts s' := by
  obtain ⟨h1, h2⟩ := hc
  cases h with
  | enterShared ht hr hp => exact ⟨h1, h2⟩
  | enterFresh ht hg =>
    have hpn : s.refreshPromise = none := by
      cases hg with
      | inl hF =>
        cases hq : s.refreshPromise with
        | none => rfl
        | some p => rw [hF, hq] at h1; simp at h1
      | inr hN => exact hN
    refine ⟨by simp [sfCounts], ?_⟩
    show s.invocations + 1 = s.settled.length + _
    rw [hpn] at h2
    simp at h2
    simp [h2]
  | settle o hp =>
    refine ⟨by simp, ?_⟩
    show s.invocations = (s.settled.length + 1) + _
    rw [hp] at h2
    simp at h2
    simp [h2, List.length_cons]
  | resume ht hs => exact ⟨h1, h2⟩

theorem sfCounts_trace {α : Type} {s s' : SFState α} {es : List SFLabel}
    (h : SFTrace s es s') (hc : sfCounts s) : sfCounts s' := by
  induction h with
  | nil => exact hc
  | cons hstep _ ih => exact ih (sfCounts_step hstep hc)

theorem winInv_enter {α : Type} {s s' : SFState α} {i : Nat}
    (h : SFStep s (.enter i) s') (hw : winInv s) : winInv s' := by
  obtain ⟨hsettled, hdisj⟩ := hw
  cases h with
  | enterShared ht hr hp =>
    rename_i l0 p0
    refine ⟨hsettled, ?_⟩
    cases hdisj with
    | inl h0 => rw [h0.2.1] at hr; cases hr
    | inr h1 =>
      obtain ⟨p', hi, hrf, hpp, htasks⟩ := h1
      have hpe : p' = p0 := Option.some.inj (hpp.symm.trans hp)
      right
      refine ⟨p', hi, hrf, hpp, ?_⟩
      intro t htm
      rcases List.mem_or_eq_of_mem_set htm with hmem | heq
      · exact htasks t hmem
      · right; rw [heq, hpe]
  | enterFresh ht hg =>
    cases hdisj with
    | inr h1 =>
      obtain ⟨p', _, hrf, hpp, _⟩ := h1
      exfalso
      cases hg with
      | inl hF => rw [hrf] at hF; cases hF
      | inr hN => rw [hpp] at hN; cases hN
    | inl h0 =>
      obtain ⟨hi, _, _, htasks⟩ := h0
      refine ⟨hsettled, Or.inr ⟨s.nextPid, ?_, rfl, rfl, ?_⟩⟩
      · show s.invocations + 1 = 1
        rw [hi]
      · intro t htm
        rcases List.mem_or_eq_of_mem_set htm with hmem | heq
        · exact Or.inl (htasks t hmem)
        · right; rw [heq]

theorem winInv_trace {α : Type} {s s' : SFState α} {es : List SFLabel}
    (h : SFTrace s es s') (hl : ∀ e ∈ es, ∃ i, e = SFLabel.enter i)
    (hw : winInv s) : winInv s' := by
  induction h with
  | nil => exact hw
  | cons hstep htr ih =>
    rename_i s0 s1 s2 e es0
    obtain ⟨i, rfl⟩ := hl e (List.mem_cons_self e es0)
    exact ih (fun e' he' => hl e' (List.mem_cons_of_mem _ he'))
      (winInv_enter hstep hw)

theorem postInv_step {α : Type} {p0 : Nat} {s s' : SFState α} {e : SFLabel}
    (h : SFStep s e s') (hp : postInv p0 s) : postInv p0 s' := by
  obtain ⟨hi, hnp, hdisj⟩ := hp
  cases h with
  | enterShared ht hr hpr =>
    exact absurd rfl (hnp _ (List.get?_mem ht))
  | enterFresh ht hg =>
    exact absurd rfl (hnp _ (List.get?_mem ht))
  | settle o hpr =>
    rename_i p1
    cases hdisj with
    | inl hA =>
      obtain ⟨hsome, hset, hall⟩ := hA
      have hpe : p1 = p0 := Option.some.inj (hpr.symm.trans hsome)
      subst hpe
      refine ⟨hi, hnp, Or.inr ⟨o, rfl, ?_, ?_⟩⟩
      · show (p1, o) :: s.settled = [(p1, o)]
        rw [hset]
      · intro t htm
        exact Or.inl (hall t htm)
    | inr hB =>
      obtain ⟨o', hnone, _, _⟩ := hB
      rw [hnone] at hpr
      cases hpr
  | resume ht hs =>
    rename_i l1 p1 o1
    cases hdisj with
    | inl hA =>
      rw [hA.2.1] at hs
      cases hs
    | inr hB =>
      obtain ⟨o0, hnone, hset, hall⟩ := hB
      rw [hset] at hs
      have hpo : p1 = p0 ∧ o1 = o0 := by
        have := List.mem_singleton.mp hs
        exact ⟨congrArg Prod.fst this, congrArg Prod.snd this⟩
      obtain ⟨hp1, ho1⟩ := hpo
      subst hp1
      subst ho1
      refine ⟨hi, ?_, Or.inr ⟨o1, hnone, hset, ?_⟩⟩
      · intro t htm
        rcases List.mem_or_eq_of_mem_set htm with hmem | heq
        · exact hnp t hmem
        · rw [heq]
          simp
      · intro t htm
        rcases List.mem_or_eq_of_mem_set htm with hmem | heq
        · exact hall t hmem
        · right
          rw [heq]

theorem postInv_trace {α : Type} {p0 : Nat} {s s' : SFState α}
    {es : List SFLabel} (h : SFTrace s es s') (hp : postInv p0 s) :
    postInv p0 s' := by
  induction h with
  | nil => exact hp
  | cons hstep _ ih => exact ih (postInv_step hstep hp)

/-- The concurrent-window argument: if every task enters `refreshTokens`
before the shared refresh settles, then exactly one `onRefreshToken`
invocation happens and every task finishes on the same promise with the
same outcome. -/
theorem sfWindow {α : Type} {labels : List α} {es1 es2 : List SFLabel}
    {mid fin : SFState α} (hn : labels ≠ [])
    (h1 : SFTrace (sfInit labels) es1 mid)
    (hent : ∀ e ∈ es1, ∃ i, e = SFLabel.enter i)
    (hmid : ∀ t ∈ mid.tasks, t.2 ≠ TaskPhase.pending)
    (h2 : SFTrace mid es2 fin)
    (hfin : ∀ t ∈ fin.tasks, ∃ p o, t.2 = TaskPhase.done p o) :
    fin.invocations = 1 ∧
      ∃ p o, ∀ t ∈ fin.tasks, t.2 = TaskPhase.done p o := by
  have hw0 : winInv (sfInit labels) := by
    refine ⟨rfl, Or.inl ⟨rfl, rfl, rfl, ?_⟩⟩
    intro t htm
    obtain ⟨l, _, rfl⟩ := List.mem_map.mp htm
    rfl
  have hwmid : winInv mid := winInv_trace h1 hent hw0
  have hlen : mid.tasks.length = labels.length := by
    rw [sfTrace_tasks_length h1]
    simp [sfInit]
  have hne : mid.tasks ≠ [] := by
    intro hcon
    rw [hcon] at hlen
    exact hn (List.eq_nil_of_length_eq_zero hlen.symm)
  obtain ⟨t0, ht0⟩ := List.exists_mem_of_ne_nil mid.tasks hne
  obtain ⟨hsettled, hdisj⟩ := hwmid
  cases hdisj with
  | inl hA => exact absurd (hA.2.2.2 t0 ht0) (hmid t0 ht0)
  | inr hB =>
    obtain ⟨p0, hi, hr, hpp, hall⟩ := hB
    have hpost : postInv p0 mid := by
      refine ⟨hi, hmid, Or.inl ⟨hpp, hsettled, ?_⟩⟩
      intro t htm
      exact (hall t htm).resolve_left (hmid t htm)
    have hpfin : postInv p0 fin := postInv_trace h2 hpost
    obtain ⟨hif, hnpf, hdf⟩ := hpfin
    have hlenf : fin.tasks.length = labels.length := by
      rw [sfTrace_tasks_length h2]
      exact hlen
    have hnef : fin.tasks ≠ [] := by
      intro hcon
      rw [hcon] at hlenf
      exact hn (List.eq_nil_of_length_eq_zero hlenf.symm)
    obtain ⟨t1, ht1⟩ := List.exists_mem_of_ne_nil fin.tasks hnef
    cases hdf with
    | inl hC =>
      obtain ⟨pt, ot, hdone⟩ := hfin t1 ht1
      rw [hC.2.2 t1 ht1] at hdone
      cases hdone
    | inr hD =>
      obtain ⟨o, _, _, hall2⟩ := hD
      refine ⟨hif, p0, o, ?_⟩
      intro t htm
      obtain ⟨pt, ot, hdone⟩ := hfin t htm
      cases hall2 t htm with
      | inl haw => rw [haw] at hdone; cases hdone
      | inr hdn => exact hdn

/-! ## Claim C1 -/

/-- C1: per client instance, at most one refresh is outstanding at any time
(`invocations ≤ settled + 1` along every trace), and when any number of
concurrent requests each receive a 401 while no refresh is in flight —
i.e. every task runs the synchronous check-or-claim prefix of
`refreshTokens` before the shared refresh settles — exactly one invocation
of `onRefreshToken` occurs, all tasks await that same shared promise, and
every task finishes with that single refresh's outcome. -/
theorem refresh_single_flight {α : Type} (labels : List α)
    (hn : labels ≠ []) (es1 es2 : List SFLabel) (mid fin : SFState α)
    (h1 : SFTrace (sfInit labels) es1 mid)
    (hent : ∀ e ∈ es1, ∃ i, e = SFLabel.enter i)
    (hmid : ∀ t ∈ mid.tasks, t.2 ≠ TaskPhase.pending)
    (h2 : SFTrace mid es2 fin)
    (hfin : ∀ t ∈ fin.tasks, ∃ p o, t.2 = TaskPhase.done p o) :
    (fin.invocations = 1 ∧
      ∃ p o, ∀ t ∈ fin.tasks, t.2 = TaskPhase.done p o) ∧
    ∀ (es : List SFLabel) (s : SFState α),
      SFTrace (sfInit labels) es s →
        s.invocations ≤ s.settled.length + 1 := by
  refine ⟨sfWindow hn h1 hent hmid h2 hfin, ?_⟩
  intro es s htr
  have hc : sfCounts s := sfCounts_trace htr ⟨rfl, rfl⟩
  rw [hc.2]
  cases s.refreshPromise.isSome <;> simp

/-- Witness for C1: a concrete two-task run in which both tasks hit a 401,
the second joins the first task's refresh, and both finish on its (single)
successful outcome. -/
theorem refresh_single_flight_witness :
    (sfFinEx.invocations = 1 ∧
      ∃ p o, ∀ t ∈ sfFinEx.tasks, t.2 = TaskPhase.done p o) ∧
    ∀ (es : List SFLabel) (s : SFState Nat),
      SFTrace (sfInit [0, 1]) es s →
        s.invocations ≤ s.settled.length + 1 := by
  refine refresh_single_flight [0, 1] (by decide)
    [.enter 0, .enter 1] [.settle 0 true, .resume 0, .resume 1]
    sfMidEx sfFinEx ?_ ?_ ?_ ?_ ?_
  · exact SFTrace.cons (@SFStep.enterFresh Nat (sfInit [0, 1]) 0 0 rfl
      (Or.inl rfl))
      (SFTrace.cons (@SFStep.enterShared Nat sfS1Ex 1 1 0 rfl rfl rfl)
        (SFTrace.nil sfMidEx))
  · intro e he
    rcases List.mem_cons.mp he with h | h
    · exact ⟨0, h⟩
    rcases List.mem_cons.mp h with h2 | h2
    · exact ⟨1, h2⟩
    exact absurd h2 (List.not_mem_nil e)
  · decide
  · exact SFTrace.cons (@SFStep.settle Nat sfMidEx 0 true rfl)
      (SFTrace.cons (@SFStep.resume Nat sfS3Ex 0 0 0 true rfl
        (List.mem_singleton.mpr rfl))
        (SFTrace.cons (@SFStep.resume Nat sfS4Ex 1 1 0 true rfl
          (List.mem_singleton.mpr rfl))
          (SFTrace.nil sfFinEx)))
  · intro t ht
    rcases List.mem_cons.mp ht with h | h
    · exact ⟨0, true, by rw [h]⟩
    rcases List.mem_cons.mp h with h2 | h2
    · exact ⟨0, true, by rw [h2]⟩
    exact absurd h2 (List.not_mem_nil t)

/-! ## Claim C2 -/

/-- C2: when the first attempt gets a 401, the refresh succeeds, and the
retried attempt gets a 401 again, the `beforeRetry` hook sees
`retryCount = 2`, invokes `onAuthError` (when provided) and throws
`AuthError`: the call fails with `AuthError` after exactly two network
attempts and exactly one `onRefreshToken` invocation — no second refresh
is started for this logical call. -/
theorem auth_retry_bounded (ep : APIEndpointM)
    (params query : Option (List (String × JVal)))
    (statuses : Nat → Nat) (env : AuthEnv)
    (respBody : Nat → Except String JVal) (kyMsg : String)
    (errBody : Option JVal)
    (hcb : env.hasCallbacks = true) (hor : env.hasOnRefreshToken = true)
    (hrs : env.refreshSucceeds = true)
    (h0 : statuses 0 = 401) (h1 : statuses 1 = 401) :
    kyCall statuses env =
      (.authFail, ⟨2, 1, if env.hasOnAuthError then 1 else 0⟩) ∧
    (request ep params query none
        (fun _ _ =>
          kyToTransport (kyCall statuses env).1 respBody kyMsg errBody)).1 =
      .error (.authError "Authentication failed") := by
  have hky : kyCall statuses env =
      (.authFail, ⟨2, 1, if env.hasOnAuthError then 1 else 0⟩) := by
    unfold kyCall
    rw [kyLoop.eq_def]
    simp only [h0]
    norm_num
    simp only [beforeRetry401, refreshTokensSeq, hcb, hor, hrs]
    norm_num
    rw [kyLoop.eq_def]
    simp only [h1]
    norm_num
    simp [beforeRetry401, refreshTokensSeq, hcb, hor, hrs]
  refine ⟨hky, ?_⟩
  rw [hky]
  rfl

/-- Witness for C2: both attempts answer 401 against a fully configured
callback set with a succeeding refresh. -/
theorem auth_retry_bounded_witness :
    kyCall (fun _ => 401) ⟨true, true, true, true⟩ =
      (.authFail, ⟨2, 1, 1⟩) ∧
    (request epCreateUser none none none
        (fun _ _ =>
          kyToTransport (kyCall (fun _ => 401) ⟨true, true, true, true⟩).1
            (fun _ => .ok .null) "Request failed" none)).1 =
      .error (.authError "Authentication failed") := by
  have h := auth_retry_bounded epCreateUser none none (fun _ => 401)
    ⟨true, true, true, true⟩ (fun _ => .ok .null) "Request failed" none
    rfl rfl rfl rfl rfl
  simpa using h

/-! ## Claim C3 -/

/-- C3: for an endpoint that declares a response schema, a 2xx response
whose parsed body fails validation makes `request` reject with the wrapped
validation error (the unvalidated value is not returned), and a body that
validates yields exactly the validated result. -/
theorem response_validation_rejects (ep : APIEndpointM) (sch : Schema)
    (params query : Option (List (String × JVal))) (data : JVal)
    (hr : ep.response = some sch) :
    (∀ m, sch data = .error m →
      request ep params query none (fun _ _ => .success (.ok data)) =
        (.error (.apiError m 0 none), 1)) ∧
    (∀ v, sch data = .ok v →
      request ep params query none (fun _ _ => .success (.ok data)) =
        (.ok v, 1)) := by
  constructor
  · intro m hm
    simp [request, mkJson, handleTransport, hr, hm]
  · intro v hv
    simp [request, mkJson, handleTransport, hr, hv]

/-- Witness for C3: `getUser`'s response schema requires `email`; a 200
body missing it is rejected with the schema's message and never returned,
while a body carrying `email` is returned validated. -/
theorem response_validation_rejects_witness :
    request epGetUser none none none
      (fun _ _ =>
        .success (.ok (.obj [("id", .str "42"), ("name", .str "Ann")]))) =
      (.error (.apiError "email required" 0 none), 1) ∧
    request epGetUser none none none
      (fun _ _ => .success (.ok (.obj [("email", .str "a@x.com")]))) =
      (.ok (.obj [("email", .str "a@x.com")]), 1) := by
  constructor
  · exact (response_validation_rejects epGetUser schEmail none none
      (.obj [("id", .str "42"), ("name", .str "Ann")]) rfl).1
      "email required" rfl
  · exact (response_validation_rejects epGetUser schEmail none none
      (.obj [("email", .str "a@x.com")]) rfl).2
      (.obj [("email", .str "a@x.com")]) rfl

/-! ## Claim C4 -/

/-- C4 counterexample: the path has the `:id` placeholder and the params
map lacks the key `id`, yet `buildPath` raises nothing and returns the
path with the placeholder still in it. -/
theorem buildPath_missing_key_silent :
    buildPath "/users/:id" (some [("q", JVal.str "1")]) = "/users/:id" ∧
    occursIn ":id".toList
      (buildPath "/users/:id" (some [("q", JVal.str "1")])).toList =
      true := by
  exact ⟨by decide, by decide⟩

/-- C4 amended: when the path contains a placeholder `:name` and no key of
the params map has its placeholder occurring in the path (in particular
`name` is missing), `buildPath` returns the path unchanged — the
placeholder is silently left in the request path and no error is raised. -/
theorem buildPath_missing_key_unchanged (path : String)
    (ps : List (String × JVal)) (name : String)
    (hocc : occursIn ((":" ++ name).toList) path.toList = true)
    (habs : ∀ kv ∈ ps, occursIn ((":" ++ kv.1).toList) path.toList = false) :
    buildPath path (some ps) = path ∧
    occursIn ((":" ++ name).toList) (buildPath path (some ps)).toList =
      true := by
  have h := buildPath_of_keys_absent path ps habs
  exact ⟨h, by rw [h]; exact hocc⟩

/-- Witness for C4 (amended): concrete path `/users/:id` with params
`{q: "1"}`. -/
theorem buildPath_missing_key_unchanged_witness :
    buildPath "/users/:id" (some [("q", JVal.str "1")]) = "/users/:id" ∧
    occursIn (":id".toList)
      (buildPath "/users/:id" (some [("q", JVal.str "1")])).toList =
      true := by
  have h := buildPath_missing_key_unchanged "/users/:id"
    [("q", JVal.str "1")] "id" (by decide) (by decide)
  exact h

/-! ## Claim C5 -/

/-- C5 counterexample: a registry whose only endpoint entry lacks a
response schema is accepted — `createAPIClient` succeeds instead of
failing with a configuration error. -/
theorem construction_accepts_missing_response :
    epNoResponse.response = none ∧
    exceptIsOk (createAPIClient cfgNoResponse 0 false) = true := ⟨rfl, rfl⟩

/-- C5 amended: runtime construction performs no validation of endpoint
entries and never fails; entries lacking a response schema (or method/path)
are rejected only by the static TypeScript types, not at construction
time. -/
theorem construction_never_fails (config : APIConfigM) (hooksId : Nat)
    (hasCallbacks : Bool) :
    exceptIsOk (createAPIClient config hooksId hasCallbacks) = true := rfl

/-! ## Claim C6 -/

/-- C6 counterexample: `String.prototype.replace` with a string pattern
replaces only the first occurrence, so a path with two `:id` placeholders
keeps the second one unreplaced. -/
theorem buildPath_second_occurrence_kept :
    buildPath "/pair/:id/:id" (some [("id", JVal.str "a")]) =
      "/pair/a/:id" ∧
    buildPath "/pair/:id/:id" (some [("id", JVal.str "a")]) ≠
      "/pair/a/a" := by
  exact ⟨by decide, by decide⟩

/-- C6 amended: for a single-entry params map whose key's placeholder
occurs in the path after a colon-free prefix, `buildPath` replaces the
FIRST occurrence of the placeholder by the URL-encoded string form of the
value (later occurrences are left as-is, per the counterexample). -/
theorem buildPath_replaces_first_occurrence (a b : List Char) (key : String)
    (v : JVal) (ha : ∀ c ∈ a, c ≠ ':') :
    buildPath (String.mk (a ++ ':' :: key.toList ++ b))
      (some [(key, v)]) =
      String.mk (a ++ (encodeURIComponent (jsToString v)).toList ++ b) := by
  show jsReplaceOnce (String.mk (a ++ ':' :: key.toList ++ b)) (":" ++ key)
      (encodeURIComponent (jsToString v)) =
    String.mk (a ++ (encodeURIComponent (jsToString v)).toList ++ b)
  unfold jsReplaceOnce
  have hpat : (":" ++ key).toList = ':' :: key.toList := by
    show (":" ++ key).data = ':' :: key.data
    rw [String.data_append]
    rfl
  rw [hpat]
  have hlist : (String.mk (a ++ ':' :: key.toList ++ b)).toList =
      a ++ ':' :: key.toList ++ b := rfl
  rw [hlist, replaceFirst_boundary key.toList
    (encodeURIComponent (jsToString v)).toList b a ha]

/-- Witness for C6 (amended): `/u/:id` with `{id: "x y"}` becomes
`/u/x%20y` (the value URL-encoded in place of the placeholder). -/
theorem buildPath_replaces_first_occurrence_witness :
    buildPath "/u/:id" (some [("id", JVal.str "x y")]) = "/u/x%20y" := by
  have h := buildPath_replaces_first_occurrence "/u/".toList
    ([] : List Char) "id" (JVal.str "x y") (by decide)
  have e1 : String.mk ("/u/".toList ++ ':' :: "id".toList ++
      ([] : List Char)) = "/u/:id" := by decide
  have e2 : String.mk ("/u/".toList ++
      (encodeURIComponent (jsToString (JVal.str "x y"))).toList ++
      ([] : List Char)) = "/u/x%20y" := by decide
  rw [e1, e2] at h
  exact h

/-! ## Claim C7 -/

theorem buildSearchParams_eq_filter (q : List (String × JVal)) :
    ∀ acc : List (String × String),
      q.foldl
        (fun acc kv =>
          if isNullish kv.2 then acc else acc ++ [(kv.1, jsToString kv.2)])
        acc =
      acc ++ (q.filter fun kv => !isNullish kv.2).map
        (fun kv => (kv.1, jsToString kv.2)) := by
  induction q with
  | nil => intro acc; simp
  | cons kv rest ih =>
    intro acc
    by_cases hkv : isNullish kv.2
    · simp [hkv, ih]
    · simp [hkv, ih]

/-- C7: query serialization keeps exactly the entries whose value is
neither `undefined` nor `null` (as `key=String(value)` pairs, in order),
and search parameters are attached to the request iff the serialized query
string is non-empty — an empty result attaches nothing at all. -/
theorem query_serialization_drops_nullish (q : List (String × JVal)) :
    buildSearchParams q =
      (q.filter fun kv => !isNullish kv.2).map
        (fun kv => (kv.1, jsToString kv.2)) ∧
    (mkSearchParams (some q) = none ↔
      searchParamsToString (buildSearchParams q) = "") ∧
    (∀ sp, mkSearchParams (some q) = some sp → sp = buildSearchParams q) ∧
    mkSearchParams none = none := by
  refine ⟨by simpa using buildSearchParams_eq_filter q [], ?_, ?_, rfl⟩
  · cases q with
    | nil => decide
    | cons kv rest =>
      simp only [mkSearchParams, List.length_cons]
      constructor
      · intro hnone
        by_cases hts : searchParamsToString
            (buildSearchParams (kv :: rest)) = ""
        · exact hts
        · simp [hts] at hnone
      · intro hts
        simp [hts]
  · intro sp hsp
    cases q with
    | nil => simp [mkSearchParams] at hsp
    | cons kv rest =>
      simp only [mkSearchParams, List.length_cons] at hsp
      by_cases hts : searchParamsToString (buildSearchParams (kv :: rest)) = ""
      · simp [hts] at hsp
      · simp [hts] at hsp
        exact hsp.symm

/-- Witness for C7: instantiation at `{page: 1, x: null, y: undefined}`. -/
theorem query_serialization_drops_nullish_witness :
    buildSearchParams [("page", JVal.num 1), ("x", JVal.null),
        ("y", JVal.undefined)] =
      ([("page", JVal.num 1), ("x", JVal.null), ("y", JVal.undefined)].filter
          fun kv => !isNullish kv.2).map
        (fun kv => (kv.1, jsToString kv.2)) ∧
    (mkSearchParams (some [("page", JVal.num 1), ("x", JVal.null),
        ("y", JVal.undefined)]) = none ↔
      searchParamsToString (buildSearchParams [("page", JVal.num 1),
        ("x", JVal.null), ("y", JVal.undefined)]) = "") ∧
    (∀ sp, mkSearchParams (some [("page", JVal.num 1), ("x", JVal.null),
        ("y", JVal.undefined)]) = some sp →
      sp = buildSearchParams [("page", JVal.num 1), ("x", JVal.null),
        ("y", JVal.undefined)]) ∧
    mkSearchParams (none : Option (List (String × JVal))) = none :=
  query_serialization_drops_nullish
    [("page", JVal.num 1), ("x", JVal.null), ("y", JVal.undefined)]

/-! ## Claim C8 -/

/-- C8 counterexample: the body `false` is supplied and fails the declared
body schema, yet — because `if (body && ...)` skips falsy bodies — no
validation failure occurs, the network call proceeds, and the call
succeeds. -/
theorem body_validation_skipped_falsy :
    schName (JVal.bool false) = .error "name must be string" ∧
    epCreateUser.bodySchema = some schName ∧
    request epCreateUser none none (some (JVal.bool false))
      (fun _ _ => .success (.ok (JVal.obj []))) =
      (.ok (JVal.obj []), 1) := ⟨rfl, rfl, rfl⟩

/-- C8 amended: for a non-GET endpoint and a supplied TRUTHY body: a body
failing the declared schema rejects the call with the validation error and
zero network calls; a body passing it is sent validated (the transport
receives `json = validated`); with no body schema the raw body is sent
unchanged. (Falsy bodies skip this path entirely, per the
counterexample.) -/
theorem body_validation_before_send (ep : APIEndpointM)
    (params query : Option (List (String × JVal))) (b : JVal)
    (hm : ep.method ≠ HTTPMethod.GET) (ht : JVal.truthy b = true) :
    (∀ sch m, ep.bodySchema = some sch → sch b = .error m →
      ∀ tr, request ep params query (some b) tr =
        (.error (.apiError m 0 none), 0)) ∧
    (∀ sch vb, ep.bodySchema = some sch → sch b = .ok vb →
      ∀ tr, request ep params query (some b) tr =
        (handleTransport ep
          (tr (buildPath ep.path params) (mkOpts ep query (some vb))),
         1)) ∧
    (ep.bodySchema = none →
      ∀ tr, request ep params query (some b) tr =
        (handleTransport ep
          (tr (buildPath ep.path params) (mkOpts ep query (some b))),
         1)) := by
  have hbne : (ep.method != HTTPMethod.GET) = true := bne_iff_ne.mpr hm
  refine ⟨?_, ?_, ?_⟩
  · intro sch m hsch herr tr
    simp [request, mkJson, ht, hbne, hsch, herr, Except.map]
  · intro sch vb hsch hok tr
    simp [request, mkJson, ht, hbne, hsch, hok, Except.map]
  · intro hnone tr
    simp [request, mkJson, ht, hbne, hnone]

/-- Witness for C8 (amended): the spec's scenario — `createUser` with body
`{name: 123}` fails with the schema's message before any network call
(zero transport invocations). -/
theorem body_validation_before_send_witness :
    request epCreateUser none none
      (some (JVal.obj [("name", JVal.num 123)]))
      (fun _ _ => .success (.ok JVal.null)) =
      (.error (.apiError "name must be string" 0 none), 0) :=
  (body_validation_before_send epCreateUser none none
    (JVal.obj [("name", JVal.num 123)]) (by decide) rfl).1
    schName "name must be string" rfl rfl
    (fun _ _ => .success (.ok JVal.null))

/-! ## Claim C9 -/

/-- C9: a validation failure thrown inside `request` — whether from the
request body or from the response body — is neither an `HTTPError` nor an
`AuthError`, so the `catch` block wraps it in a generic `APIError` with
`status = 0`, exactly the status used for transport-level failures; no
distinct runtime error type marks validation failures. -/
theorem validation_errors_status_zero (ep : APIEndpointM)
    (params query : Option (List (String × JVal))) :
    (∀ b sch m, ep.method ≠ HTTPMethod.GET → JVal.truthy b = true →
      ep.bodySchema = some sch → sch b = .error m →
      ∀ tr, (request ep params query (some b) tr).1 =
        .error (.apiError m 0 none)) ∧
    (∀ sch data m, ep.response = some sch → sch data = .error m →
      (request ep params query none
          (fun _ _ => .success (.ok data))).1 =
        .error (.apiError m 0 none)) ∧
    (∀ msg, (request ep params query none (fun _ _ => .netErr msg)).1 =
      .error (.apiError msg 0 none)) := by
  refine ⟨?_, ?_, ?_⟩
  · intro b sch m hm ht hsch herr tr
    have hbne : (ep.method != HTTPMethod.GET) = true := bne_iff_ne.mpr hm
    simp [request, mkJson, ht, hbne, hsch, herr, Except.map]
  · intro sch data m hr herr
    simp [request, mkJson, handleTransport, hr, herr]
  · intro msg
    simp [request, mkJson, handleTransport]

/-- Witness for C9: body-validation failure, response-validation failure
and a transport failure all yield `APIError` with status 0. -/
theorem validation_errors_status_zero_witness :
    (request epCreateUser none none
        (some (JVal.obj [("name", JVal.num 123)]))
        (fun _ _ => .success (.ok JVal.null))).1 =
      .error (.apiError "name must be string" 0 none) ∧
    (request epGetUser none none none
        (fun _ _ => .success (.ok (JVal.obj [])))).1 =
      .error (.apiError "email required" 0 none) ∧
    (request epGetUser none none none
        (fun _ _ => .netErr "Network error")).1 =
      .error (.apiError "Network error" 0 none) := by
  refine ⟨?_, ?_, ?_⟩
  · exact (validation_errors_status_zero epCreateUser none none).1
      (JVal.obj [("name", JVal.num 123)]) schName "name must be string"
      (by decide) rfl rfl rfl (fun _ _ => .success (.ok JVal.null))
  · exact (validation_errors_status_zero epGetUser none none).2.1
      schEmail (JVal.obj []) "email required" rfl rfl
  · exact (validation_errors_status_zero epGetUser none none).2.2
      "Network error"

/-! ## Claim C10 -/

/-- C10: an endpoint whose (truthy) `baseUrl` override differs from the
config's base URL gets a separately created `ky` client, but that client
is created with `hooks: this.hooks` — the same hooks object of the same
instance — so the single-flight refresh state is shared across endpoints:
concurrent 401s on endpoints with different base URLs (the
endpoint-labelled tasks) still trigger exactly one `onRefreshToken`
invocation. -/
theorem hooks_shared_across_base_urls (config : APIConfigM) (hid : Nat)
    (hc : Bool) (ep : APIEndpointM) (u : String)
    (hov : ep.baseUrl = some u) (hne : u ≠ "")
    (hdiff : some u ≠ config.baseUrl)
    (labels : List String) (hn : labels ≠ [])
    (es1 es2 : List SFLabel) (mid fin : SFState String)
    (h1 : SFTrace (sfInit labels) es1 mid)
    (hent : ∀ e ∈ es1, ∃ i, e = SFLabel.enter i)
    (hmid : ∀ t ∈ mid.tasks, t.2 ≠ TaskPhase.pending)
    (h2 : SFTrace mid es2 fin)
    (hfin : ∀ t ∈ fin.tasks, ∃ p o, t.2 = TaskPhase.done p o) :
    getClientForEndpoint (mkAPIClient config hid hc) ep =
      { prefixUrl := some u, hooksId := hid } ∧
    (fin.invocations = 1 ∧
      ∃ p o, ∀ t ∈ fin.tasks, t.2 = TaskPhase.done p o) := by
  constructor
  · have hbu : getEndpointBaseUrl (mkAPIClient config hid hc) ep =
        some u := by
      unfold getEndpointBaseUrl
      show jsOrOptStr ep.baseUrl config.baseUrl = some u
      rw [hov]
      simp [jsOrOptStr, hne]
    unfold getClientForEndpoint
    rw [hbu]
    show (if some u = config.baseUrl then _ else _) = _
    rw [if_neg hdiff]
    rfl
  · exact sfWindow hn h1 hent hmid h2 hfin

/-- Witness for C10: `epOverride`'s base URL differs from the config's;
two tasks labelled by endpoints with different base URLs share one
refresh. -/
theorem hooks_shared_across_base_urls_witness :
    getClientForEndpoint (mkAPIClient cfgNoResponse 7 true) epOverride =
      { prefixUrl := some "https://orders.example.com", hooksId := 7 } ∧
    (sfFinSx.invocations = 1 ∧
      ∃ p o, ∀ t ∈ sfFinSx.tasks, t.2 = TaskPhase.done p o) := by
  refine hooks_shared_across_base_urls cfgNoResponse 7 true epOverride
    "https://orders.example.com" rfl (by decide) (by decide)
    ["users", "orders"] (by decide)
    [.enter 0, .enter 1] [.settle 0 true, .resume 0, .resume 1]
    sfMidSx sfFinSx ?_ ?_ ?_ ?_ ?_
  · exact SFTrace.cons
      (@SFStep.enterFresh String (sfInit ["users", "orders"]) 0 "users" rfl
        (Or.inl rfl))
      (SFTrace.cons
        (@SFStep.enterShared String sfS1Sx 1 "orders" 0 rfl rfl rfl)
        (SFTrace.nil sfMidSx))
  · intro e he
    rcases List.mem_cons.mp he with h | h
    · exact ⟨0, h⟩
    rcases List.mem_cons.mp h with h2 | h2
    · exact ⟨1, h2⟩
    exact absurd h2 (List.not_mem_nil e)
  · decide
  · exact SFTrace.cons (@SFStep.settle String sfMidSx 0 true rfl)
      (SFTrace.cons (@SFStep.resume String sfS3Sx 0 "users" 0 true rfl
        (List.mem_singleton.mpr rfl))
        (SFTrace.cons (@SFStep.resume String sfS4Sx 1 "orders" 0 true rfl
          (List.mem_singleton.mpr rfl))
          (SFTrace.nil sfFinSx)))
  · intro t ht
    rcases List.mem_cons.mp ht with h | h
    · exact ⟨0, true, by rw [h]⟩
    rcases List.mem_cons.mp h with h2 | h2
    · exact ⟨0, true, by rw [h2]⟩
    exact absurd h2 (List.not_mem_nil t)
